import Mathlib

/-!
Verification of the quantum IoQueue worker core.

Shallow embedding of `src/quantum/impl/quantum_io_queue_impl.h` (class
`Bloomberg::quantum::IoQueue`).  C++ member state becomes a Lean structure,
member functions become state-passing Lean functions, `Maybe<IoTask>` becomes
`Option IoTask`, and the spinlock-guard scopes of the work-selection routines
are reified as explicit acquire/release event traces so that "two locks held
simultaneously" is a decidable property of the trace.
-/

namespace Quantum

/-- Outcome of `IoTask::run()` as observed by the worker loop: either the task
returns an integer status code, or it raises a C++ exception that escapes
into the worker loop (`IoQueue::run` lines 162-176 catch it). -/
inductive TaskOutcome where
  | ret (rc : Int)
  | throwEx
  deriving DecidableEq, Repr

/-- Value of `Task::Status::Success` converted to `int` (`rc == (int)Task::Status::Success`). -/
def successCode : Int := 0

/-- Value of `(int)Queue::Id::Any`, the sentinel queue id meaning "shared".  Upstream
defines `Queue::Id::Any = -1`; only equality with it matters here. -/
def anyQueueId : Int := -1

/-- An `IoTask` as the pool sees it: an identity (to speak about distinct
tasks), the high-priority flag, the queue id, and the behaviour of `run()`. -/
structure IoTask where
  tid : Nat
  isHighPriority : Bool
  queueId : Int
  outcome : TaskOutcome
  deriving DecidableEq, Repr

/-- The counters of `IQueueStatistics` touched by `IoQueue`
(`_stats.inc...` calls in the source). -/
structure Stats where
  postedCount : Nat := 0
  completedCount : Nat := 0
  errorCount : Nat := 0
  sharedQueueCompletedCount : Nat := 0
  sharedQueueErrorCount : Nat := 0
  highPriorityCount : Nat := 0
  numElements : Nat := 0
  deriving DecidableEq, Repr

/-- Enumeration `Configuration::BackoffPolicy`. -/
inductive BackoffPolicy where
  | Linear
  | Exponential
  deriving DecidableEq, Repr

/-- The member state of one `IoQueue` (constructor initializer list, lines
33-50 of the impl header).  `_sharedIoQueues` is a possibly-null pointer to
the shared-queue vector; here only its null-ness and the states of the queues
it points to are modelled.  `_thread` exists iff `_sharedIoQueues` is non-null
(constructor line 46-49). -/
structure IoQueueState where
  hasSharedIoQueues : Bool := false
  loadBalanceSharedIoQueues : Bool := false
  loadBalancePollIntervalMs : Nat := 100
  loadBalancePollIntervalBackoffPolicy : BackoffPolicy := BackoffPolicy.Linear
  loadBalancePollIntervalNumBackoffs : Nat := 0
  loadBalanceBackoffNum : Nat := 0
  queue : List IoTask := []
  isEmpty : Bool := true
  isInterrupted : Bool := false
  isIdle : Bool := true
  terminated : Bool := false
  stats : Stats := {}
  deriving DecidableEq, Repr

namespace IoQueueState

/-- Member `IoQueue::signalEmptyCondition(bool value)` (lines 348-360): store `value`
into `_isEmpty` under the mutex; notify when `value` is false.  The notify has
no sequential effect; the state update is the `_isEmpty` write. -/
def signalEmptyCondition (value : Bool) (s : IoQueueState) : IoQueueState :=
  { s with isEmpty := value }

/-- Member `IoQueue::doEnqueue(IoTask&&)` (lines 200-220), together with the boolean
`signalEmptyCondition` receives when it is called.  The first component is the
new state; the second is `some v` when `signalEmptyCondition(v)` was invoked
and `none` otherwise (the C++ function returns `void`, so this event is the
only value the call emits beyond the state). -/
def doEnqueue (task : IoTask) (s : IoQueueState) : IoQueueState × Option Bool :=
  let isEmptyBefore := s.queue.isEmpty
  let s :=
    if task.isHighPriority then
      { s with stats := { s.stats with highPriorityCount := s.stats.highPriorityCount + 1 },
               queue := task :: s.queue }
    else
      { s with queue := s.queue ++ [task] }
  let s := { s with stats := { s.stats with postedCount := s.stats.postedCount + 1,
                                            numElements := s.stats.numElements + 1 } }
  if !s.loadBalanceSharedIoQueues && isEmptyBefore then
    (s.signalEmptyCondition false, some false)
  else
    (s, none)

/-- Member `IoQueue::enqueue(IoTask&&)` (lines 180-186): take the spinlock and call
`doEnqueue`.  Sequentially the lock always succeeds, so this is `doEnqueue`;
the C++ return type is `void`, the second component is the
`signalEmptyCondition` event as in `doEnqueue`. -/
def enqueue (task : IoTask) (s : IoQueueState) : IoQueueState × Option Bool :=
  doEnqueue task s

/-- Member `IoQueue::doDequeue(std::atomic_bool& hint)` (lines 246-258).  `hint` is
the caller's `_isIdle`; the result is `(returned task, new queue state,
value written to hint)`. -/
def doDequeue (s : IoQueueState) : Option IoTask × IoQueueState × Bool :=
  let hint := s.queue.isEmpty
  if !hint then
    match s.queue with
    | task :: rest =>
        (some task,
         { s with queue := rest,
                  stats := { s.stats with numElements := s.stats.numElements - 1 } },
         hint)
    | [] => (none, s, hint)
  else
    (none, s, hint)

/-- Member `IoQueue::size()` (lines 300-309), C++11-ABI branch: `_queue.size()` plus
one when a task is in flight (`!_isIdle`). -/
def size (s : IoQueueState) : Nat :=
  if s.isIdle then s.queue.length else s.queue.length + 1

/-- Member `IoQueue::empty()` (lines 311-316): queue empty and no executing task. -/
def empty (s : IoQueueState) : Bool :=
  s.queue.isEmpty && s.isIdle

/-- Member `IoQueue::getBackoffInterval()` (lines 284-298): saturating increment of
`_loadBalanceBackoffNum`, then the policy formula.  `std::exp2(n)` cast to
`size_t` is exact for the sizes involved, modelled as `2 ^ n`.  Returns the
interval in milliseconds and the new state. -/
def getBackoffInterval (s : IoQueueState) : Nat × IoQueueState :=
  let s :=
    if s.loadBalanceBackoffNum < s.loadBalancePollIntervalNumBackoffs then
      { s with loadBalanceBackoffNum := s.loadBalanceBackoffNum + 1 }
    else s
  match s.loadBalancePollIntervalBackoffPolicy with
  | BackoffPolicy.Linear =>
      (s.loadBalancePollIntervalMs + s.loadBalancePollIntervalMs * s.loadBalanceBackoffNum, s)
  | BackoffPolicy.Exponential =>
      (s.loadBalancePollIntervalMs * 2 ^ s.loadBalanceBackoffNum, s)

/-- Member `IoQueue::terminate()` (lines 318-334): CAS on `_terminated`; when the CAS
succeeds AND `_sharedIoQueues` is non-null, set `_isInterrupted`, notify, join
the thread and clear the queue.  When `_sharedIoQueues` is null (shared-only
worker) the conjunct fails and nothing beyond the CAS happens. -/
def terminate (s : IoQueueState) : IoQueueState :=
  if !s.terminated && s.hasSharedIoQueues then
    { s with terminated := true, isInterrupted := true, queue := [] }
  else
    { s with terminated := true }

end IoQueueState

/-- A shared queue as seen by `IoQueue::tryDequeueFromShared`: its `IoQueue`
state plus whether its spinlock's `try_lock` succeeds for the caller at this
moment (the sequential rendering of lock contention). -/
structure SharedQueue where
  state : IoQueueState
  lockable : Bool
  deriving DecidableEq, Repr

namespace SharedQueue

/-- Member `IoQueue::tryDequeue(std::atomic_bool& hint)` (lines 234-244): try the
spinlock; on success run `doDequeue`, else return `{}` leaving `hint`
untouched.  `callerIdle` is the current value of the caller's `_isIdle`;
the third component is its value after the call. -/
def tryDequeue (q : SharedQueue) (callerIdle : Bool) : Option IoTask × SharedQueue × Bool :=
  if q.lockable then
    let r := q.state.doDequeue
    (r.1, { q with state := r.2.1 }, r.2.2)
  else
    (none, q, callerIdle)

end SharedQueue

/-- The `for` loop of `IoQueue::tryDequeueFromShared` (lines 266-275):
`remaining` counts the iterations left (`size - i`), `idx` is the static
rotating `index`, `callerIdle` the caller's `_isIdle`, `acc` the local
`size` accumulator.  Each iteration pre-increments `idx`, selects
`qs[idx % qs.length]`, adds that queue's `size()` to `acc`, and calls
`tryDequeue`; a task returns immediately, otherwise the loop continues.
Returns `(task, queues, index, callerIdle, acc)` at loop exit. -/
def scanShared : Nat → List SharedQueue → Nat → Bool → Nat →
    Option IoTask × List SharedQueue × Nat × Bool × Nat
  | 0, qs, idx, ci, acc => (none, qs, idx, ci, acc)
  | Nat.succ i, qs, idx, ci, acc =>
      let idx' := idx + 1
      let j := idx' % qs.length
      match qs.get? j with
      | none => (none, qs, idx', ci, acc)
      | some q =>
          let acc' := acc + q.state.size
          let r := SharedQueue.tryDequeue q ci
          let qs' := qs.set j r.2.1
          match r.1 with
          | some task => (some task, qs', idx', r.2.2, acc')
          | none => scanShared i qs' idx' r.2.2 acc'

/-- Member `IoQueue::tryDequeueFromShared()` (lines 260-282): run the scan; a found
task is returned; if the scan found nothing but the accumulated `size` was
non-zero, recurse (`//try again`); if the accumulated size was zero return
`{}`.  The C++ recursion has no bound, so `fuel` bounds it here: `none`
means fuel ran out, `some (task?, queues, index, callerIdle)` is an actual
return of the C++ function. -/
def tryDequeueFromShared : Nat → List SharedQueue → Nat → Bool →
    Option (Option IoTask × List SharedQueue × Nat × Bool)
  | 0, _, _, _ => none
  | Nat.succ fuel, qs, idx, ci =>
      let r := scanShared qs.length qs idx ci 0
      match r.1 with
      | some task => some (some task, r.2.1, r.2.2.1, r.2.2.2.1)
      | none =>
          if r.2.2.2.2 ≠ 0 then
            tryDequeueFromShared fuel r.2.1 r.2.2.1 r.2.2.2.1
          else
            some (none, r.2.1, r.2.2.1, r.2.2.2.1)

/-! ## Spinlock acquisition traces

The work-selection routines are rendered as traces of spinlock
acquire/release events, read off the `SpinLock::Guard` scopes of the
source.  Lock ids: `0` = the spinlock of `(*_sharedIoQueues)[0]`, `1` = the
worker's own `_spinlock`, `2 + i` = the spinlock of shared queue `i` in the
load-balanced scan. -/

/-- A spinlock acquisition or release event. -/
inductive LockEv where
  | acq (q : Nat)
  | rel (q : Nat)
  deriving DecidableEq, Repr

/-- Running maximum of the number of locks held: `cur` locks currently held,
`mx` the maximum so far. -/
def maxHeldAux : Nat → Nat → List LockEv → Nat
  | _, mx, [] => mx
  | cur, mx, LockEv.acq _ :: rest => maxHeldAux (cur + 1) (Nat.max mx (cur + 1)) rest
  | cur, mx, LockEv.rel _ :: rest => maxHeldAux (cur - 1) mx rest

/-- Maximum number of spinlocks held simultaneously along a trace. -/
def maxHeld (t : List LockEv) : Nat := maxHeldAux 0 0 t

/-- Lock trace of `IoQueue::grabWorkItem()` (lines 362-399), non-load-balanced
mode (the only mode that calls it, line 112-115, so the inner `dequeue` calls
take no lock themselves, line 225).  The outer `SpinLock::Guard` (line 370
resp. 385) spans the whole branch; when the first `dequeue` returns nothing
the second guard (line 375 resp. 390) opens INSIDE the outer guard's scope. -/
def grabWorkItemLockTrace (grabFromShared : Bool) (firstDequeueEmpty : Bool) : List LockEv :=
  if grabFromShared then
    [LockEv.acq 0] ++ (if firstDequeueEmpty then [LockEv.acq 1, LockEv.rel 1] else [])
      ++ [LockEv.rel 0]
  else
    [LockEv.acq 1] ++ (if firstDequeueEmpty then [LockEv.acq 0, LockEv.rel 0] else [])
      ++ [LockEv.rel 1]

/-- Flattening of singleton guard scopes: `some i` is a `SpinLock::Guard` on
lock `i` whose scope contains no further acquisition, `none` a failed
`try_lock` (no event). -/
def pairBlocks : List (Option Nat) → List LockEv
  | [] => []
  | none :: bs => pairBlocks bs
  | some i :: bs => LockEv.acq i :: LockEv.rel i :: pairBlocks bs

/-- Guard blocks of one `tryDequeueFromShared` scan (lines 266-275): each
iteration's `tryDequeue` (guard lines 238-243) locks shared queue `i`'s
spinlock alone when its `try_lock` succeeds, and locks nothing otherwise. -/
def tryDequeueFromSharedLockBlocks (lockables : List Bool) : List (Option Nat) :=
  lockables.enum.map fun p => if p.2 then some (2 + p.1) else none

/-- Guard blocks of `IoQueue::grabWorkItemFromAll()` (lines 401-424),
load-balanced mode: one branch scans the shared set then, if empty-handed,
calls `dequeue` on the own queue (which in load-balanced mode takes the own
spinlock alone, lines 225-230); the other branch does the reverse. -/
def grabWorkItemFromAllLockBlocks (grabFromShared : Bool) (lockables : List Bool)
    (scanEmpty : Bool) (ownEmpty : Bool) : List (Option Nat) :=
  if grabFromShared then
    tryDequeueFromSharedLockBlocks lockables ++ (if scanEmpty then [some 1] else [])
  else
    [some 1] ++ (if ownEmpty then tryDequeueFromSharedLockBlocks lockables else [])

/-! ## The worker loop body -/

/-- Whether the `while (true)` loop of `IoQueue::run` continues to its next
iteration or breaks out. -/
inductive LoopStep where
  | breakLoop
  | continueLoop
  deriving DecidableEq, Repr

namespace IoQueueState

/-- Lines 122-176 of `IoQueue::run`: execute the task and update statistics
according to the returned status, or swallow an escaped exception in the
`catch` handlers (lines 162-176), which update nothing. -/
def runTask (s : IoQueueState) (t : IoTask) : IoQueueState :=
  match t.outcome with
  | TaskOutcome.throwEx => s
  | TaskOutcome.ret rc =>
      if rc = successCode then
        if t.queueId = anyQueueId then
          { s with stats := { s.stats with
              sharedQueueCompletedCount := s.stats.sharedQueueCompletedCount + 1 } }
        else
          { s with stats := { s.stats with
              completedCount := s.stats.completedCount + 1 } }
      else
        if t.queueId = anyQueueId then
          { s with stats := { s.stats with
              sharedQueueErrorCount := s.stats.sharedQueueErrorCount + 1 } }
        else
          { s with stats := { s.stats with
              errorCount := s.stats.errorCount + 1 } }

/-- One iteration of the `while (true)` loop of `IoQueue::run` (lines
107-177), from the interruption check onward, given the task the iteration
obtained (`none` when `grabWorkItem` found nothing, line 116-119): `break`
only on interruption; an obtained task is run via `runTask`; every other
path (including an escaped exception) continues the loop. -/
def runIteration (s : IoQueueState) (t : Option IoTask) : IoQueueState × LoopStep :=
  if s.isInterrupted then
    (s, LoopStep.breakLoop)
  else
    match t with
    | none => (s, LoopStep.continueLoop)
    | some task => (s.runTask task, LoopStep.continueLoop)

/-- Successive loop iterations each obtaining and running the next task. -/
def processTasks (s : IoQueueState) (ts : List IoTask) : IoQueueState :=
  ts.foldl runTask s

/-- Fuel-bounded repeated `doDequeue`: the order in which tasks leave the
queue when it is drained with no concurrent activity. -/
def drainAux : Nat → IoQueueState → List IoTask
  | 0, _ => []
  | Nat.succ n, s =>
      match s.doDequeue with
      | (some t, rest, _) => t :: drainAux n rest
      | (none, _, _) => []

/-- Dequeue order of a queue state: tasks in the order successive
`doDequeue` calls return them. -/
def drain (s : IoQueueState) : List IoTask := drainAux s.queue.length s

/-- State iterator: `iterBackoff s k` is the state after `k` calls to `getBackoffInterval`. -/
def iterBackoff (s : IoQueueState) : Nat → IoQueueState
  | 0 => s
  | Nat.succ k => (getBackoffInterval (iterBackoff s k)).2

/-- Value returned by the `k`-th call (`k ≥ 1`) to `getBackoffInterval`
starting from state `s`. -/
def kthBackoffInterval (s : IoQueueState) (k : Nat) : Nat :=
  (getBackoffInterval (iterBackoff s (k - 1))).1

/-- Modelled from the spec: "`enqueue(task)`: always succeeds; places
high-priority at head, else at tail.  Returns whether the queue was empty
before insertion (for signalling)."  Second component is that returned
boolean; for comparison with the source's `enqueue`, which returns `void`. -/
def enqueueSpecModel (task : IoTask) (s : IoQueueState) : IoQueueState × Bool :=
  let wasEmpty := s.queue.isEmpty
  if task.isHighPriority then
    ({ s with queue := task :: s.queue }, wasEmpty)
  else
    ({ s with queue := s.queue ++ [task] }, wasEmpty)

end IoQueueState

/-! ## Concrete sample states and tasks used by witnesses and counterexamples -/

/-- A high-priority task. -/
def taskHighA : IoTask := ⟨0, true, 0, TaskOutcome.ret 0⟩

/-- Another high-priority task, distinct from `taskHighA`. -/
def taskHighB : IoTask := ⟨1, true, 0, TaskOutcome.ret 0⟩

/-- A standard-priority task. -/
def taskStd : IoTask := ⟨2, false, 0, TaskOutcome.ret 0⟩

/-- A task whose `run()` raises an exception that escapes to the worker loop. -/
def taskThrow : IoTask := ⟨3, false, 5, TaskOutcome.throwEx⟩

/-- A freshly constructed worker state. -/
def emptyWorkerState : IoQueueState := {}

/-- A shared-only worker (null `_sharedIoQueues`, hence no thread) with one
pending task. -/
def sharedOnlyNonEmpty : IoQueueState := { hasSharedIoQueues := false, queue := [taskStd] }

/-- A dedicated worker (non-null `_sharedIoQueues`) with one pending task. -/
def dedicatedNonEmpty : IoQueueState := { hasSharedIoQueues := true, queue := [taskStd] }

/-- A queue holding exactly one task. -/
def oneTaskState : IoQueueState := { queue := [taskStd] }

/-- Exponential-backoff configuration with base 1 ms and saturation cap 5,
step counter freshly reset. -/
def expBackoffState : IoQueueState :=
  { loadBalancePollIntervalBackoffPolicy := BackoffPolicy.Exponential,
    loadBalancePollIntervalMs := 1,
    loadBalancePollIntervalNumBackoffs := 5,
    loadBalanceBackoffNum := 0 }

/-- A worker configured in load-balanced mode with an empty queue. -/
def lbModeState : IoQueueState := { loadBalanceSharedIoQueues := true }

/-- A shared queue holding one task whose spinlock is free. -/
def sampleSharedQueue : SharedQueue := ⟨{ queue := [taskHighA] }, true⟩

/-- The state of `sampleSharedQueue` after its task is taken. -/
def drainedSharedQueue : SharedQueue := ⟨{}, true⟩

/-! ## Helper lemmas -/

namespace IoQueueState

theorem doEnqueue_queue (t : IoTask) (s : IoQueueState) :
    ((doEnqueue t s).1).queue = if t.isHighPriority then t :: s.queue else s.queue ++ [t] := by
  simp only [doEnqueue, signalEmptyCondition]
  split_ifs <;> simp_all

theorem doEnqueue_event (t : IoTask) (s : IoQueueState) :
    (doEnqueue t s).2 =
      if !s.loadBalanceSharedIoQueues && s.queue.isEmpty then some false else none := by
  simp only [doEnqueue, signalEmptyCondition]
  split_ifs <;> simp_all

theorem doEnqueue_posted (t : IoTask) (s : IoQueueState) :
    ((doEnqueue t s).1).stats.postedCount = s.stats.postedCount + 1 := by
  simp only [doEnqueue, signalEmptyCondition]
  split_ifs <;> simp_all

theorem doDequeue_cons (s : IoQueueState) (x : IoTask) (r : List IoTask)
    (h : s.queue = x :: r) :
    doDequeue s =
      (some x,
       { s with queue := r, stats := { s.stats with numElements := s.stats.numElements - 1 } },
       false) := by
  simp [doDequeue, h]

theorem doDequeue_nil (s : IoQueueState) (h : s.queue = []) :
    doDequeue s = (none, s, true) := by
  simp [doDequeue, h]

theorem drainAux_eq : ∀ (q : List IoTask) (s : IoQueueState), s.queue = q →
    drainAux q.length s = q := by
  intro q
  induction q with
  | nil =>
      intro s h
      simp [drainAux]
  | cons x r ih =>
      intro s h
      have hd := doDequeue_cons s x r h
      simp only [List.length_cons, drainAux, hd]
      exact congrArg (x :: ·) (ih _ rfl)

theorem drain_eq (s : IoQueueState) : drain s = s.queue :=
  drainAux_eq s.queue s rfl

end IoQueueState

theorem maxHeldAux_pairBlocks : ∀ (bs : List (Option Nat)) (mx : Nat),
    maxHeldAux 0 mx (pairBlocks bs) ≤ Nat.max mx 1 := by
  intro bs
  induction bs with
  | nil =>
      intro mx
      simp [pairBlocks, maxHeldAux]
  | cons b bs ih =>
      intro mx
      cases b with
      | none => simpa [pairBlocks] using ih mx
      | some i =>
          have h := ih (Nat.max mx 1)
          simp only [pairBlocks, maxHeldAux, Nat.max_self] at h ⊢
          simpa [Nat.max_assoc] using h

/-- Backoff interval as a function of policy, base and step counter
(the two `return` expressions of `getBackoffInterval`, lines 290-297). -/
def backoffValue (p : BackoffPolicy) (b n : Nat) : Nat :=
  match p with
  | BackoffPolicy.Linear => b + b * n
  | BackoffPolicy.Exponential => b * 2 ^ n

theorem getBackoffInterval_eq (s : IoQueueState) :
    IoQueueState.getBackoffInterval s =
      (backoffValue s.loadBalancePollIntervalBackoffPolicy s.loadBalancePollIntervalMs
         (if s.loadBalanceBackoffNum < s.loadBalancePollIntervalNumBackoffs then
            s.loadBalanceBackoffNum + 1 else s.loadBalanceBackoffNum),
       { s with loadBalanceBackoffNum :=
           if s.loadBalanceBackoffNum < s.loadBalancePollIntervalNumBackoffs then
             s.loadBalanceBackoffNum + 1 else s.loadBalanceBackoffNum }) := by
  cases s
  simp only [IoQueueState.getBackoffInterval, backoffValue]
  split_ifs with h <;> split <;> simp_all

theorem backoffValue_mono (p : BackoffPolicy) (b : Nat) {n m : Nat} (h : n ≤ m) :
    backoffValue p b n ≤ backoffValue p b m := by
  cases p <;> simp only [backoffValue]
  · gcongr
  · gcongr
    exact one_le_two

theorem iterBackoff_preserve (s : IoQueueState) (j : Nat) :
    (IoQueueState.iterBackoff s j).loadBalancePollIntervalBackoffPolicy =
        s.loadBalancePollIntervalBackoffPolicy ∧
    (IoQueueState.iterBackoff s j).loadBalancePollIntervalMs = s.loadBalancePollIntervalMs ∧
    (IoQueueState.iterBackoff s j).loadBalancePollIntervalNumBackoffs =
        s.loadBalancePollIntervalNumBackoffs := by
  induction j with
  | zero => exact ⟨rfl, rfl, rfl⟩
  | succ j ih =>
      simp only [IoQueueState.iterBackoff, getBackoffInterval_eq]
      exact ih

theorem iterBackoff_num (s : IoQueueState) (j : Nat) (h0 : s.loadBalanceBackoffNum = 0) :
    (IoQueueState.iterBackoff s j).loadBalanceBackoffNum =
      min j s.loadBalancePollIntervalNumBackoffs := by
  induction j with
  | zero => simpa [IoQueueState.iterBackoff] using h0
  | succ j ih =>
      have hm := (iterBackoff_preserve s j).2.2
      simp only [IoQueueState.iterBackoff, getBackoffInterval_eq, ih, hm]
      split_ifs <;> omega

/-! ## Claim theorems -/

/-- C1, counterexample: a shared-only worker (null `_sharedIoQueues`) holding
one pending task still holds it after `terminate()` returns, and the queue is
not observably empty — `terminate` only clears the queue when
`_sharedIoQueues` is non-null (line 322). -/
theorem terminate_sharedOnly_counterexample :
    (IoQueueState.terminate sharedOnlyNonEmpty).queue = [taskStd] ∧
    IoQueueState.empty (IoQueueState.terminate sharedOnlyNonEmpty) = false ∧
    ¬ (IoQueueState.terminate sharedOnlyNonEmpty).queue.isEmpty = true := by
  decide

/-- C1, amended: `terminate()` on a shared-only worker (null shared-queue
set) leaves the pending-task queue unchanged and only marks the worker
terminated; the queue is cleared exactly when the worker is dedicated
(non-null shared-queue set) and not already terminated. -/
theorem terminate_sharedOnly_keeps_queue (s : IoQueueState) :
    (s.hasSharedIoQueues = false →
       (IoQueueState.terminate s).queue = s.queue ∧
       (IoQueueState.terminate s).terminated = true) ∧
    (s.hasSharedIoQueues = true → s.terminated = false →
       (IoQueueState.terminate s).queue = []) := by
  constructor
  · intro h
    simp [IoQueueState.terminate, h]
  · intro h ht
    simp [IoQueueState.terminate, h, ht]

/-- C1, witness: the amended theorem applied to a concrete shared-only worker
with one pending task and to a concrete dedicated worker. -/
theorem terminate_sharedOnly_keeps_queue_witness :
    (IoQueueState.terminate sharedOnlyNonEmpty).queue = [taskStd] ∧
    (IoQueueState.terminate dedicatedNonEmpty).queue = [] := by
  refine ⟨?_, ?_⟩
  · have h := (terminate_sharedOnly_keeps_queue sharedOnlyNonEmpty).1 (by decide)
    simpa using h.1
  · exact (terminate_sharedOnly_keeps_queue dedicatedNonEmpty).2 (by decide) (by decide)

/-- C2, counterexample: two high-priority tasks enqueued in order A then B
into an empty queue are dequeued B first — `doEnqueue` puts high-priority
tasks at the front (`emplace_front`, line 207), so among themselves they come
out in reverse (LIFO) order, refuting "the earlier one is dequeued first". -/
theorem high_priority_lifo_counterexample :
    (IoQueueState.doDequeue
        ((IoQueueState.doEnqueue taskHighB
            (IoQueueState.doEnqueue taskHighA emptyWorkerState).1).1)).1 = some taskHighB ∧
    taskHighB ≠ taskHighA := by
  decide

/-- C2, amended: among standard-priority tasks FIFO holds — enqueueing A then
B appends them at the tail and the drain (successive `doDequeue`) order is
the prior queue followed by A then B; among high-priority tasks the order is
reversed — enqueueing A then B puts B in front of A, so the later-enqueued
high-priority task is dequeued first. -/
theorem enqueue_order_by_priority (s : IoQueueState) (a b : IoTask) :
    (a.isHighPriority = false → b.isHighPriority = false →
       IoQueueState.drain ((IoQueueState.doEnqueue b (IoQueueState.doEnqueue a s).1).1) =
         IoQueueState.drain s ++ [a, b]) ∧
    (a.isHighPriority = true → b.isHighPriority = true →
       IoQueueState.drain ((IoQueueState.doEnqueue b (IoQueueState.doEnqueue a s).1).1) =
         b :: a :: IoQueueState.drain s) := by
  constructor
  · intro ha hb
    rw [IoQueueState.drain_eq, IoQueueState.drain_eq, IoQueueState.doEnqueue_queue,
        IoQueueState.doEnqueue_queue, ha, hb]
    simp
  · intro ha hb
    rw [IoQueueState.drain_eq, IoQueueState.drain_eq, IoQueueState.doEnqueue_queue,
        IoQueueState.doEnqueue_queue, ha, hb]
    simp

/-- C2, witness: the amended theorem applied to two standard-priority tasks
and to two high-priority tasks on an empty queue. -/
theorem enqueue_order_by_priority_witness :
    IoQueueState.drain ((IoQueueState.doEnqueue taskHighB
        (IoQueueState.doEnqueue taskHighA emptyWorkerState).1).1) =
      taskHighB :: taskHighA :: IoQueueState.drain emptyWorkerState := by
  exact (enqueue_order_by_priority emptyWorkerState taskHighA taskHighB).2 (by decide) (by decide)

/-- C5, counterexample: dequeuing the single task of a one-element queue
removes the last element but writes `false` to the flag — `doDequeue` stores
the queue's emptiness BEFORE popping (line 249), not after, refuting "after a
dequeue that removes the last element, the flag is true". -/
theorem doDequeue_flag_counterexample :
    (IoQueueState.doDequeue oneTaskState).1 = some taskStd ∧
    (IoQueueState.doDequeue oneTaskState).2.1.queue = [] ∧
    (IoQueueState.doDequeue oneTaskState).2.2 = false ∧
    ¬ (IoQueueState.doDequeue oneTaskState).2.2 =
        (IoQueueState.doDequeue oneTaskState).2.1.queue.isEmpty := by
  decide

/-- C5, amended: the flag written by `doDequeue` reflects PRE-dequeue
emptiness: it is the queue's emptiness at entry; on an empty queue nothing is
removed, the state is unchanged and the flag is `true`; on a non-empty queue
the front task is removed and the flag is `false`, even when that task was
the last one. -/
theorem doDequeue_flag_pre_emptiness (s : IoQueueState) (x : IoTask) (r : List IoTask) :
    ((IoQueueState.doDequeue s).2.2 = s.queue.isEmpty) ∧
    (s.queue = [] → IoQueueState.doDequeue s = (none, s, true)) ∧
    (s.queue = x :: r →
       (IoQueueState.doDequeue s).1 = some x ∧
       (IoQueueState.doDequeue s).2.1.queue = r ∧
       (IoQueueState.doDequeue s).2.2 = false) := by
  refine ⟨?_, ?_, ?_⟩
  · cases h : s.queue with
    | nil => simp [IoQueueState.doDequeue_nil s h, h]
    | cons y t => simp [IoQueueState.doDequeue_cons s y t h, h]
  · intro h
    exact IoQueueState.doDequeue_nil s h
  · intro h
    simp [IoQueueState.doDequeue_cons s x r h]

/-- C5, witness: the amended theorem applied to a concrete one-element
queue. -/
theorem doDequeue_flag_pre_emptiness_witness :
    (IoQueueState.doDequeue oneTaskState).1 = some taskStd ∧
    (IoQueueState.doDequeue oneTaskState).2.2 = false := by
  have h := (doDequeue_flag_pre_emptiness oneTaskState taskStd []).2.2 (by decide)
  exact ⟨h.1, h.2.2⟩

/-- C8, counterexample: `IoQueue::enqueue` returns `void`; the only boolean
the implementation emits is the argument of `signalEmptyCondition`, and in
load-balanced mode an enqueue onto an empty queue emits none at all, while
the spec-modelled enqueue returns the pre-insertion emptiness `true` — so
enqueue does not return whether the queue was empty before insertion. -/
theorem enqueue_returns_void_counterexample :
    (IoQueueState.enqueue taskStd lbModeState).2 = none ∧
    (IoQueueState.enqueueSpecModel taskStd lbModeState).2 = true ∧
    ¬ (IoQueueState.enqueue taskStd lbModeState).2 =
        some (IoQueueState.enqueueSpecModel taskStd lbModeState).2 := by
  decide

/-- C8, amended: `enqueue` always succeeds, placing high-priority tasks at
the head and others at the tail, and increments the posted counter; it
returns no value to the caller — the pre-insertion emptiness is observed
internally and, only outside load-balanced mode, used to signal the
not-empty condition on the empty-to-non-empty transition. -/
theorem enqueue_inserts_and_signals (s : IoQueueState) (t : IoTask) :
    ((IoQueueState.enqueue t s).1.queue =
       if t.isHighPriority then t :: s.queue else s.queue ++ [t]) ∧
    ((IoQueueState.enqueue t s).2 =
       if !s.loadBalanceSharedIoQueues && s.queue.isEmpty then some false else none) ∧
    ((IoQueueState.enqueue t s).1.stats.postedCount = s.stats.postedCount + 1) :=
  ⟨IoQueueState.doEnqueue_queue t s, IoQueueState.doEnqueue_event t s,
   IoQueueState.doEnqueue_posted t s⟩

/-- C10: the two public observers agree — `empty()` is `true` exactly when
`size()` is `0`, and both hold exactly when the pending list is empty and the
idle flag is set (no task in flight). -/
theorem size_empty_agree (s : IoQueueState) :
    (IoQueueState.empty s = true ↔ IoQueueState.size s = 0) ∧
    (IoQueueState.size s = 0 ↔ (s.queue = [] ∧ s.isIdle = true)) := by
  cases h : s.isIdle <;>
    simp [IoQueueState.empty, IoQueueState.size, h, List.isEmpty_iff]

/-- C4, counterexample: with exponential policy, base 1 ms and saturation cap
5, the first call to `getBackoffInterval` after a reset returns 2 ms, not
`1 * 2 ^ (1 - 1) = 1` — the step counter is incremented BEFORE the formula is
evaluated (lines 287-289), so the claimed `b * 2^(k-1)` schedule is off by
one step. -/
theorem backoff_first_interval_counterexample :
    IoQueueState.kthBackoffInterval expBackoffState 1 = 2 ∧
    ¬ IoQueueState.kthBackoffInterval expBackoffState 1 = 1 * 2 ^ (1 - 1) := by
  decide

/-- C4, amended: with exponential policy, base `b` and saturation cap `m`,
the `k`-th call to `getBackoffInterval` after a reset of the step counter
returns `b * 2 ^ (min k m)` for every `k ≥ 1` — so the first interval after a
reset is `2b` when `m ≥ 1` (2 ms for `b` = 1 ms), and for `b` = 1, `m` = 5
the first six intervals are 2, 4, 8, 16, 32, 32 ms, summing to 94 ms. -/
theorem backoff_exponential_kth_interval (s : IoQueueState) (b m k : Nat)
    (hp : s.loadBalancePollIntervalBackoffPolicy = BackoffPolicy.Exponential)
    (hb : s.loadBalancePollIntervalMs = b)
    (hm : s.loadBalancePollIntervalNumBackoffs = m)
    (h0 : s.loadBalanceBackoffNum = 0)
    (hk : 1 ≤ k) :
    IoQueueState.kthBackoffInterval s k = b * 2 ^ (min k m) := by
  obtain ⟨hp1, hb1, hm1⟩ := iterBackoff_preserve s (k - 1)
  have hn1 := iterBackoff_num s (k - 1) h0
  simp only [IoQueueState.kthBackoffInterval, getBackoffInterval_eq, hp1, hb1, hm1, hn1,
    hp, hb, hm, backoffValue]
  have he : (if (k - 1) ⊓ m < m then (k - 1) ⊓ m + 1 else (k - 1) ⊓ m) = k ⊓ m := by
    split_ifs <;> omega
  rw [he]

/-- C4, witness: the amended theorem applied to the concrete configuration
`b` = 1, `m` = 5, at the first call after a reset. -/
theorem backoff_exponential_kth_interval_witness :
    IoQueueState.kthBackoffInterval expBackoffState 1 = 1 * 2 ^ (min 1 5) :=
  backoff_exponential_kth_interval expBackoffState 1 5 1 rfl rfl rfl rfl (by decide)

/-- C9: successive `getBackoffInterval` calls return monotonically
non-decreasing values for every configuration (base, policy, cap), and once
the step counter has reached the saturation cap the state is a fixed point,
so all subsequent calls return the same value. -/
theorem backoff_monotone_saturating (s : IoQueueState) :
    ((IoQueueState.getBackoffInterval s).1 ≤
       (IoQueueState.getBackoffInterval ((IoQueueState.getBackoffInterval s).2)).1) ∧
    (s.loadBalancePollIntervalNumBackoffs ≤ s.loadBalanceBackoffNum →
       (IoQueueState.getBackoffInterval s).2 = s ∧
       (IoQueueState.getBackoffInterval ((IoQueueState.getBackoffInterval s).2)).1 =
         (IoQueueState.getBackoffInterval s).1) := by
  constructor
  · simp only [getBackoffInterval_eq]
    apply backoffValue_mono
    split_ifs <;> omega
  · intro h
    have hfix : (IoQueueState.getBackoffInterval s).2 = s := by
      simp only [getBackoffInterval_eq]
      rw [if_neg (by omega)]
    exact ⟨hfix, by rw [hfix]⟩

/-- C9, witness: the theorem applied to a freshly constructed worker, whose
step counter (0) already equals its saturation cap (0). -/
theorem backoff_monotone_saturating_witness :
    (IoQueueState.getBackoffInterval emptyWorkerState).2 = emptyWorkerState ∧
    (IoQueueState.getBackoffInterval
        ((IoQueueState.getBackoffInterval emptyWorkerState).2)).1 =
      (IoQueueState.getBackoffInterval emptyWorkerState).1 :=
  (backoff_monotone_saturating emptyWorkerState).2 (by decide)

/-- C7, counterexample: a task whose `run()` raises an escaping exception is
swallowed by the catch handlers (lines 162-176) and the loop continues, but
NO errored counter is incremented — neither `errorCount` nor
`sharedQueueErrorCount` changes, refuting "the appropriate errored counter is
incremented". -/
theorem escaped_exception_counter_counterexample :
    IoQueueState.runIteration emptyWorkerState (some taskThrow) =
      (emptyWorkerState, LoopStep.continueLoop) ∧
    ¬ ((IoQueueState.runTask emptyWorkerState taskThrow).stats.errorCount =
         emptyWorkerState.stats.errorCount + 1 ∨
       (IoQueueState.runTask emptyWorkerState taskThrow).stats.sharedQueueErrorCount =
         emptyWorkerState.stats.sharedQueueErrorCount + 1) := by
  decide

/-- C7, amended: for every task whose `run()` raises an exception that
escapes into the worker loop, the worker does not terminate — the exception
is caught within that iteration, the loop proceeds, and subsequent tasks in
the queue are still executed; however the iteration leaves the state (and in
particular every errored counter) unchanged: errored counters are only
updated when `run()` returns a non-success status. -/
theorem escaped_exception_isolated (s : IoQueueState) (t : IoTask) (ts : List IoTask)
    (h : t.outcome = TaskOutcome.throwEx) :
    (s.isInterrupted = false →
       IoQueueState.runIteration s (some t) = (s, LoopStep.continueLoop)) ∧
    IoQueueState.runTask s t = s ∧
    IoQueueState.processTasks s (t :: ts) = IoQueueState.processTasks s ts := by
  have hrt : IoQueueState.runTask s t = s := by
    simp [IoQueueState.runTask, h]
  refine ⟨?_, hrt, ?_⟩
  · intro hi
    simp [IoQueueState.runIteration, hi, hrt]
  · simp [IoQueueState.processTasks, hrt]

/-- C7, witness: the amended theorem applied to a concrete throwing task on a
fresh worker, with one subsequent task. -/
theorem escaped_exception_isolated_witness :
    IoQueueState.runIteration emptyWorkerState (some taskThrow) =
      (emptyWorkerState, LoopStep.continueLoop) ∧
    IoQueueState.processTasks emptyWorkerState [taskThrow, taskStd] =
      IoQueueState.processTasks emptyWorkerState [taskStd] := by
  have h := escaped_exception_isolated emptyWorkerState taskThrow [taskStd] (by decide)
  exact ⟨h.1 (by decide), h.2.2⟩

/-- C3, counterexample: when `grabWorkItem` polls the shared queue first and
finds it empty, the guard on the worker's own spinlock (line 375) opens
inside the scope of the guard on the shared queue's spinlock (line 370): at
that point two queue spinlocks are held simultaneously, refuting "each
spinlock is released before the next one is acquired". -/
theorem two_locks_held_counterexample :
    maxHeld (grabWorkItemLockTrace true true) = 2 ∧
    ¬ maxHeld (grabWorkItemLockTrace true true) ≤ 1 := by
  decide

/-- C3, amended: the load-balanced scan and `grabWorkItemFromAll` hold at
most one queue spinlock at a time (every guard scope there is a singleton),
but non-load-balanced `grabWorkItem` holds exactly two when the first queue
it polls is empty — the second lock is acquired while the first is still
held — and one otherwise. -/
theorem lock_nesting_bounds :
    (∀ bs : List (Option Nat), maxHeld (pairBlocks bs) ≤ 1) ∧
    (∀ (g : Bool) (l : List Bool) (se oe : Bool),
       maxHeld (pairBlocks (grabWorkItemFromAllLockBlocks g l se oe)) ≤ 1) ∧
    (∀ (g e : Bool), maxHeld (grabWorkItemLockTrace g e) = if e then 2 else 1) := by
  have hpb : ∀ bs : List (Option Nat), maxHeld (pairBlocks bs) ≤ 1 := by
    intro bs
    simpa [maxHeld] using maxHeldAux_pairBlocks bs 0
  refine ⟨hpb, fun g l se oe => hpb _, ?_⟩
  intro g e
  cases g <;> cases e <;> decide

/-- C6: `tryDequeueFromShared` (i) returns the task when some `tryDequeue`
of the scan succeeds, (ii) retries the full scan instead of returning none
when all attempts returned none but the accumulated size is non-zero, and
(iii) returns none only when the accumulated size observed across a full
scan of the shared-queue set is zero (`fuel` bounds the unbounded C++
recursion; a `some` result is an actual return of the function). -/
theorem tryDequeueFromShared_contract (fuel : Nat) (qs : List SharedQueue)
    (idx : Nat) (ci : Bool) :
    (∀ task qs2 idx2 ci2 sz,
       scanShared qs.length qs idx ci 0 = (some task, qs2, idx2, ci2, sz) →
       tryDequeueFromShared (fuel + 1) qs idx ci = some (some task, qs2, idx2, ci2)) ∧
    (∀ qs2 idx2 ci2 sz,
       scanShared qs.length qs idx ci 0 = (none, qs2, idx2, ci2, sz) → sz ≠ 0 →
       tryDequeueFromShared (fuel + 1) qs idx ci = tryDequeueFromShared fuel qs2 idx2 ci2) ∧
    (∀ qs2 idx2 ci2,
       tryDequeueFromShared fuel qs idx ci = some (none, qs2, idx2, ci2) →
       ∃ qs0 idx0 ci0,
         scanShared qs0.length qs0 idx0 ci0 0 = (none, qs2, idx2, ci2, 0)) := by
  refine ⟨?_, ?_, ?_⟩
  · intro task qs2 idx2 ci2 sz h
    simp [tryDequeueFromShared, h]
  · intro qs2 idx2 ci2 sz h hsz
    simp [tryDequeueFromShared, h, hsz]
  · induction fuel generalizing qs idx ci with
    | zero =>
        intro qs2 idx2 ci2 h
        simp [tryDequeueFromShared] at h
    | succ fuel ih =>
        intro qs2 idx2 ci2 h
        rcases hscan : scanShared qs.length qs idx ci 0 with ⟨t, qsA, idxA, ciA, szA⟩
        simp only [tryDequeueFromShared, hscan] at h
        cases t with
        | some task => simp at h
        | none =>
            simp only [ne_eq, ite_not] at h
            split at h
            · rename_i hsz
              refine ⟨qs, idx, ci, ?_⟩
              simp only [Option.some.injEq, Prod.mk.injEq] at h
              rw [hscan, hsz]
              simp [h.1, h.2.1, h.2.2]
            · exact ih qsA idxA ciA qs2 idx2 ci2 h

/-- C6, witness: the contract applied to one shared queue holding one task
with a free spinlock — the scan finds the task and the function returns
it. -/
theorem tryDequeueFromShared_contract_witness :
    tryDequeueFromShared 1 [sampleSharedQueue] 0 true =
      some (some taskHighA, [drainedSharedQueue], 1, false) :=
  (tryDequeueFromShared_contract 0 [sampleSharedQueue] 0 true).1
    taskHighA [drainedSharedQueue] 1 false 1 (by decide)

end Quantum
